import Mathlib

/-!
Shallow embedding of `src/line.rs` of rustyline-async (the `LineState`
input-line engine).

Modelling conventions:

* Text is represented at the granularity of extended grapheme clusters.
  A `Grapheme` records its (nonempty) UTF-8 byte sequence and its display
  width, so a `String` of the source becomes a `List Grapheme`; byte
  offsets, byte lengths (`str.len()`), display widths
  (`UnicodeWidthStr::width`) and grapheme counts/indices
  (`graphemes(true)`, `grapheme_indices(true)`) are all computed from it
  exactly as the source computes them.  Each list element is one grapheme
  cluster (segmentation is taken as given); consequently a `KeyCode::Char`
  event delivers a character that forms a complete grapheme of its own,
  which is the `prev_len != new_len` path of the source's pending-cluster
  logic.
* The terminal sink is modelled as the queue of crossterm commands the code
  emits (`TermCmd`); functions return the state together with the emitted
  command list.  Queueing cannot fail in the model, so the `io::Result`
  layer is dropped; `ReadlineError::{Eof, Interrupted, IO}` remain as the
  distinguished outcomes of `handle_event`.
* The `History` collaborator is external (spec section 6): `history.update()`
  does not touch `LineState`, and the results of `search_next` /
  `search_previous` arrive as the payload of the `Event.up` / `Event.down`
  events.
* `current_column` is a `u16` in the source and every store into it goes
  through an `as u16` cast, modelled as `% 65536`.  `last_line_length` is a
  `usize`; its arithmetic cannot overflow for any physically writable
  amount of data, so it is a plain `Nat`, while the single `as u16` cast it
  flows through (`MoveRight`) keeps its `% 65536`.
* A small screen interpreter (`Screen`) gives the standard meaning of the
  emitted commands (1-based `MoveToColumn`, cursor-relative moves, clears,
  raw writes with line feed moving straight down), to check what a sequence
  of prints leaves on screen.
-/

namespace RustylineAsync

/-- One extended grapheme cluster: its UTF-8 bytes (at least one, split as
first byte plus rest so nonemptiness is structural) and its display width. -/
structure Grapheme where
  firstByte : Nat
  restBytes : List Nat
  width : Nat
deriving DecidableEq

/-- Byte length of a grapheme cluster (`str.len()` on the cluster). -/
def Grapheme.bytes (g : Grapheme) : Nat := g.restBytes.length + 1

/-- The UTF-8 bytes of a grapheme cluster. -/
def Grapheme.data (g : Grapheme) : List Nat := g.firstByte :: g.restBytes

/-- Whether the cluster is the ASCII space `" "` (the comparison
`*str == " "` of the word-motion handlers). -/
def Grapheme.isSpaceG (g : Grapheme) : Bool := g.firstByte == 32 && g.restBytes == []

/-- Byte length of a string given as grapheme list (`String::len`). -/
def textBytes (l : List Grapheme) : Nat := (l.map Grapheme.bytes).sum

/-- The UTF-8 byte stream of a string given as grapheme list. -/
def bytesOf (l : List Grapheme) : List Nat := l.flatMap Grapheme.data

/-- Display width of a whole string (`UnicodeWidthStr::width(&line[..])`). -/
def lineWidth (l : List Grapheme) : Nat := (l.map Grapheme.width).sum

/-- Display width of the byte-prefix `line[0..n]` for a byte offset `n`
lying on a cluster boundary (`UnicodeWidthStr::width(&self.line[0..pos])`). -/
def widthUpToByte : List Grapheme → Nat → Nat
  | [], _ => 0
  | g :: gs, n => if g.bytes ≤ n then g.width + widthUpToByte gs (n - g.bytes) else 0

/-- Byte offset of the boundary in front of grapheme number `k`
(so `byteOffset l l.length` is the total byte length). -/
def byteOffset : List Grapheme → Nat → Nat
  | _, 0 => 0
  | [], _ + 1 => 0
  | g :: gs, k + 1 => g.bytes + byteOffset gs k

/-- The pairs produced by `grapheme_indices(true)` starting at byte offset
`off`: each grapheme with the byte offset it starts at. -/
def graphemeIndicesAux : Nat → List Grapheme → List (Nat × Grapheme)
  | _, [] => []
  | off, g :: gs => (off, g) :: graphemeIndicesAux (off + g.bytes) gs

/-- The pairs produced by `line.grapheme_indices(true)`. -/
def graphemeIndices (l : List Grapheme) : List (Nat × Grapheme) :=
  graphemeIndicesAux 0 l

/-- Insertion of a grapheme at a byte offset on a cluster boundary
(`String::insert(pos, c)` where `c` forms a grapheme of its own). -/
def insertAtByte : List Grapheme → Nat → Grapheme → List Grapheme
  | [], _, g => [g]
  | h :: t, pos, g => if pos = 0 then g :: h :: t else h :: insertAtByte t (pos - h.bytes) g

/-- Helper of `replaceRangeEmpty` keeping a running byte offset: drops every
grapheme whose byte span lies inside `[start, stop)`. -/
def rreAux : List Grapheme → Nat → Nat → Nat → List Grapheme
  | [], _, _, _ => []
  | g :: gs, off, start, stop =>
    if start ≤ off ∧ off + g.bytes ≤ stop then rreAux gs (off + g.bytes) start stop
    else g :: rreAux gs (off + g.bytes) start stop

/-- Removal of the byte range `[start, stop)` on cluster boundaries
(`String::replace_range(start..stop, "")`, also `String::drain(start..stop)`). -/
def replaceRangeEmpty (l : List Grapheme) (start stop : Nat) : List Grapheme :=
  rreAux l 0 start stop

/-- The commands the code can queue on the terminal sink (crossterm's
vocabulary as used by `line.rs`). -/
inductive TermCmd where
  | moveToColumn (n : Nat)
  | moveUp (n : Nat)
  | moveDown (n : Nat)
  | moveRight (n : Nat)
  | moveTo (x y : Nat)
  | clearFromCursorDown
  | clearAll
  | write (data : List Nat)
deriving DecidableEq

/-- The `LineState` struct of `line.rs` (the `history` field is the external
collaborator and is not part of the core state). -/
structure LineState where
  line : List Grapheme
  line_cursor_grapheme : Nat
  current_column : Nat
  cluster_buffer : List Grapheme
  prompt : List Grapheme
  last_line_length : Nat
  last_line_completed : Bool
  term_size : Nat × Nat
deriving DecidableEq

/-- Byte length of the prompt (`self.prompt.len()`). -/
def promptBytes (s : LineState) : Nat := textBytes s.prompt

/-- `LineState::new`. -/
def LineState.new (prompt : List Grapheme) (term_size : Nat × Nat) : LineState :=
  { line := []
    line_cursor_grapheme := 0
    current_column := textBytes prompt % 65536
    cluster_buffer := []
    prompt := prompt
    last_line_length := 0
    last_line_completed := true
    term_size := term_size }

/-- `LineState::line_height`: number of wrapped lines before position `pos`. -/
def line_height (s : LineState) (pos : Nat) : Nat := pos / s.term_size.fst

/-- `LineState::current_grapheme`:
`line.grapheme_indices(true).take(cursor).last()`. -/
def current_grapheme (s : LineState) : Option (Nat × Grapheme) :=
  ((graphemeIndices s.line).take s.line_cursor_grapheme).getLast?

/-- The byte offset just after the current grapheme: the value
`pos + str.len()` of `current_grapheme().unwrap_or((0, ""))`. -/
def cursorByteEnd (s : LineState) : Nat :=
  match current_grapheme s with
  | none => 0
  | some pg => pg.fst + pg.snd.bytes

/-- `LineState::move_cursor`: clamp the grapheme cursor and recompute the
cached column `(prompt.len() + width(line[0..pos])) as u16`. -/
def move_cursor (s : LineState) (change : Int) : LineState :=
  let cursor :=
    if 0 < change then
      min (s.line_cursor_grapheme + change.toNat) s.line.length
    else
      s.line_cursor_grapheme - (-change).toNat
  let s1 := { s with line_cursor_grapheme := cursor }
  { s1 with current_column := (promptBytes s1 + widthUpToByte s1.line (cursorByteEnd s1)) % 65536 }

/-- `LineState::move_to_beginning`: `MoveToColumn(1)` then
`MoveUp(line_height(from.saturating_sub(1)))`. -/
def move_to_beginning (s : LineState) (fr : Nat) : List TermCmd :=
  [TermCmd.moveToColumn 1, TermCmd.moveUp (line_height s (fr - 1))]

/-- `LineState::move_from_beginning`:
`MoveDown(line_height(to.saturating_sub(1)))` then
`MoveRight(to % term_size.0)`. -/
def move_from_beginning (s : LineState) (tgt : Nat) : List TermCmd :=
  [TermCmd.moveDown (line_height s (tgt - 1)), TermCmd.moveRight (tgt % s.term_size.fst)]

/-- `LineState::reset_cursor`. -/
def reset_cursor (s : LineState) : List TermCmd :=
  move_to_beginning s s.current_column

/-- `LineState::set_cursor`. -/
def set_cursor (s : LineState) : List TermCmd :=
  move_from_beginning s s.current_column

/-- `LineState::clear`. -/
def clear (s : LineState) : List TermCmd :=
  move_to_beginning s s.current_column ++ [TermCmd.clearFromCursorDown]

/-- `LineState::render`: write prompt and line, move back to the beginning
from the end-of-text column, then forward to `current_column`. -/
def render (s : LineState) : List TermCmd :=
  let line_len := (promptBytes s + lineWidth s.line) % 65536
  TermCmd.write (bytesOf s.prompt ++ bytesOf s.line)
    :: (move_to_beginning s line_len ++ move_from_beginning s s.current_column)

/-- `LineState::clear_and_render`. -/
def clear_and_render (s : LineState) : List TermCmd :=
  clear s ++ render s

/-- `<[u8]>::split_inclusive(|b| *b == b'\n')`: split after every newline
byte, keeping the newline; an empty slice yields no chunks. -/
def splitInclusiveNl : List Nat → List (List Nat)
  | [] => []
  | b :: bs =>
    if b = 10 then [b] :: splitInclusiveNl bs
    else
      match splitInclusiveNl bs with
      | [] => [[b]]
      | seg :: rest => (b :: seg) :: rest

/-- `LineState::print_data`: clear the line; if the last printed chunk was
unterminated, reposition onto its visual line; write the chunks with
`MoveToColumn(1)` after each; update the trailing-length bookkeeping
(accumulating `data.len()`, wrapping modulo the width once at least one
full row, with an extra line feed in that case); finally reposition and
re-render the prompt line. -/
def print_data (s : LineState) (data : List Nat) : LineState × List TermCmd :=
  let cmds1 := clear s
  let cmds2 :=
    if s.last_line_completed then []
    else [TermCmd.moveUp 1, TermCmd.moveToColumn 1,
          TermCmd.moveRight (s.last_line_length % 65536)]
  let cmds3 := (splitInclusiveNl data).flatMap
    (fun l => [TermCmd.write l, TermCmd.moveToColumn 1])
  if data.getLast? = some 10 then
    let s1 := { s with last_line_completed := true, last_line_length := 0 }
    (s1, cmds1 ++ cmds2 ++ cmds3 ++ [TermCmd.moveToColumn 1] ++ render s1)
  else
    let len0 := s.last_line_length + data.length
    let len := if s.term_size.fst ≤ len0 then len0 % s.term_size.fst else len0
    let extra := if s.term_size.fst ≤ len0 then [TermCmd.write [10]] else []
    let s1 := { s with last_line_completed := false, last_line_length := len }
    (s1, cmds1 ++ cmds2 ++ cmds3 ++ extra
          ++ [TermCmd.write [10], TermCmd.moveToColumn 1] ++ render s1)

/-- `ReadlineError` (only the variants `handle_event` itself produces plus
the I/O variant it can propagate). -/
inductive ReadlineError where
  | eof
  | interrupted
  | io
deriving DecidableEq

/-- Result value of `handle_event`: `Ok(None)`, `Ok(Some(line))` or `Err(e)`. -/
inductive HandleResult where
  | ok (line : Option (List Grapheme))
  | err (e : ReadlineError)
deriving DecidableEq

/-- One step of the event machine: successor state, queued terminal
commands, and the returned value. -/
structure Step where
  state : LineState
  cmds : List TermCmd
  result : HandleResult
deriving DecidableEq

/-- Input events (spec section 6).  `up`/`down` carry the answer of the
external history collaborator's `search_next`/`search_previous`. -/
inductive Event where
  | enter
  | backspace
  | left
  | right
  | home
  | endKey
  | up (found : Option (List Grapheme))
  | down (found : Option (List Grapheme))
  | char (g : Grapheme)
  | ctrlD
  | ctrlC
  | ctrlL
  | ctrlU
  | ctrlLeft
  | ctrlRight
  | resize (x y : Nat)
  | other
deriving DecidableEq

/-- The `KeyCode::Enter` arm: clear, take the line, reset the cursor with
the `-100000` sentinel, render, return the taken line. -/
def enterStep (s : LineState) : Step :=
  let cmds := clear s
  let line := s.line
  let s1 := move_cursor { s with line := [] } (-100000)
  { state := s1, cmds := cmds ++ render s1, result := HandleResult.ok (some line) }

/-- The `KeyCode::Backspace` arm: if a grapheme precedes the cursor, remove
its byte range and move the cursor back one. -/
def backspaceStep (s : LineState) : Step :=
  match current_grapheme s with
  | none => { state := s, cmds := [], result := HandleResult.ok none }
  | some (pos, str) =>
    let cmds := clear s
    let len := pos + str.bytes
    let s1 := { s with line := replaceRangeEmpty s.line pos len }
    let s2 := move_cursor s1 (-1)
    { state := s2, cmds := cmds ++ render s2, result := HandleResult.ok none }

/-- The `Left`/`Right`/`Home`/`End` arms: reset the visible cursor, move the
logical cursor, set the visible cursor. -/
def arrowStep (s : LineState) (change : Int) : Step :=
  let cmds := reset_cursor s
  let s1 := move_cursor s change
  { state := s1, cmds := cmds ++ set_cursor s1, result := HandleResult.ok none }

/-- The `Up`/`Down` arms: if the history collaborator found a match, replace
the line wholesale, move the cursor to the end, clear and render. -/
def historyStep (s : LineState) (found : Option (List Grapheme)) : Step :=
  match found with
  | none => { state := s, cmds := [], result := HandleResult.ok none }
  | some l =>
    let s1 := { s with line := l }
    let cmds := clear s1
    let s2 := move_cursor s1 100000
    { state := s2, cmds := cmds ++ render s2, result := HandleResult.ok none }

/-- The `KeyCode::Char(c)` arm, at grapheme granularity: the pushed
character always completes a grapheme of its own, so the pending-cluster
count grows and the `prev_len != new_len` path runs. -/
def charStep (s : LineState) (g : Grapheme) : Step :=
  let cmds := clear s
  let prev_len := s.cluster_buffer.length
  let cb := s.cluster_buffer ++ [g]
  let new_len := cb.length
  let pos := cursorByteEnd s
  let s1 := { s with line := insertAtByte s.line pos g, cluster_buffer := cb }
  let s2 :=
    if prev_len ≠ new_len then
      let s2 := move_cursor s1 1
      if 0 < prev_len then
        match graphemeIndices s2.cluster_buffer with
        | [] => s2
        | (p, str) :: _ =>
          { s2 with cluster_buffer := replaceRangeEmpty s2.cluster_buffer p str.bytes }
      else s2
    else s1
  { state := s2, cmds := cmds ++ render s2, result := HandleResult.ok none }

/-- The CTRL-D arm: `writeln!`, clear, return `Err(Eof)`. -/
def ctrlDStep (s : LineState) : Step :=
  { state := s, cmds := TermCmd.write [10] :: clear s, result := HandleResult.err ReadlineError.eof }

/-- The CTRL-C arm: print the prompt and line as committed output, clear the
buffer, reset the cursor with the `-10000` sentinel, redraw, return
`Err(Interrupted)`. -/
def ctrlCStep (s : LineState) : Step :=
  let pd := print_data s (bytesOf s.prompt ++ bytesOf s.line)
  let s1 := { pd.fst with line := [] }
  let s2 := move_cursor s1 (-10000)
  { state := s2, cmds := pd.snd ++ clear_and_render s2,
    result := HandleResult.err ReadlineError.interrupted }

/-- The CTRL-L arm: clear the whole screen, move to the origin, redraw. -/
def ctrlLStep (s : LineState) : Step :=
  { state := s, cmds := [TermCmd.clearAll, TermCmd.moveTo 0 0] ++ clear_and_render s,
    result := HandleResult.ok none }

/-- The CTRL-U arm: drain the bytes from the start through the current
grapheme, reset the cursor with the `-10000` sentinel, redraw. -/
def ctrlUStep (s : LineState) : Step :=
  match current_grapheme s with
  | none => { state := s, cmds := [], result := HandleResult.ok none }
  | some (p, str) =>
    let pos := p + str.bytes
    let s1 := { s with line := replaceRangeEmpty s.line 0 pos }
    let s2 := move_cursor s1 (-10000)
    { state := s2, cmds := clear_and_render s2, result := HandleResult.ok none }

/-- The CTRL-Left arm (word motion): walk the grapheme indices backwards
from the cursor, skip spaces, stop behind the next space, or fall back to
the `-10000` sentinel when no space is found. -/
def ctrlLeftStep (s : LineState) : Step :=
  let cmds := reset_cursor s
  let count := s.line.length
  let skip_count := count - s.line_cursor_grapheme
  let s1 :=
    match (((graphemeIndices s.line).reverse.drop skip_count).dropWhile
            (fun pg => pg.snd.isSpaceG)).find? (fun pg => pg.snd.isSpaceG) with
    | some (pos, _) =>
      let change : Int := (pos : Int) - (s.line_cursor_grapheme : Int)
      move_cursor s (change + 1)
    | none => move_cursor s (-10000)
  { state := s1, cmds := cmds ++ set_cursor s1, result := HandleResult.ok none }

/-- The CTRL-Right arm (word motion): walk the grapheme indices forwards
from the cursor, skip spaces, stop at the next space, or fall back to the
`10000` sentinel when no space is found. -/
def ctrlRightStep (s : LineState) : Step :=
  let cmds := reset_cursor s
  let s1 :=
    match (((graphemeIndices s.line).drop s.line_cursor_grapheme).dropWhile
            (fun pg => pg.snd.isSpaceG)).find? (fun pg => pg.snd.isSpaceG) with
    | some (pos, _) =>
      let change : Int := (pos : Int) - (s.line_cursor_grapheme : Int)
      move_cursor s change
    | none => move_cursor s 10000
  { state := s1, cmds := cmds ++ set_cursor s1, result := HandleResult.ok none }

/-- The `Event::Resize` arm: store the new size and redraw. -/
def resizeStep (s : LineState) (x y : Nat) : Step :=
  let s1 := { s with term_size := (x, y) }
  { state := s1, cmds := clear_and_render s1, result := HandleResult.ok none }

/-- `LineState::handle_event` (the preceding `history.update()` does not
touch `LineState`). -/
def handle_event (s : LineState) (e : Event) : Step :=
  match e with
  | Event.enter => enterStep s
  | Event.backspace => backspaceStep s
  | Event.left => arrowStep s (-1)
  | Event.right => arrowStep s 1
  | Event.home => arrowStep s (-100000)
  | Event.endKey => arrowStep s 100000
  | Event.up found => historyStep s found
  | Event.down found => historyStep s found
  | Event.char g => charStep s g
  | Event.ctrlD => ctrlDStep s
  | Event.ctrlC => ctrlCStep s
  | Event.ctrlL => ctrlLStep s
  | Event.ctrlU => ctrlUStep s
  | Event.ctrlLeft => ctrlLeftStep s
  | Event.ctrlRight => ctrlRightStep s
  | Event.resize x y => resizeStep s x y
  | Event.other => { state := s, cmds := [], result := HandleResult.ok none }

/-! Screen interpreter: the idealized terminal sink of spec section 6,
executing the queued commands in order.  `MoveToColumn` is the 1-based ANSI
column command, relative moves add or subtract rows/columns (clamped at the
margins), a written line feed moves straight down without returning the
column (which is why the code queues `MoveToColumn(1)` after each chunk),
and writing at the right margin wraps to the next row. -/

/-- Terminal screen: width, the rows of written bytes (absent cells are
blank), and the cursor position. -/
structure Screen where
  width : Nat
  rows : List (List Nat)
  row : Nat
  col : Nat
deriving DecidableEq

/-- Pad a row with blanks (byte 32) up to length `n`. -/
def padTo (l : List Nat) (n : Nat) : List Nat := l ++ List.replicate (n - l.length) 32

/-- Write byte `b` at cell `i` of a row, padding with blanks as needed. -/
def setAt (l : List Nat) (i b : Nat) : List Nat := (padTo l (i + 1)).set i b

/-- The row at index `r` (blank if never written). -/
def getRow (rows : List (List Nat)) (r : Nat) : List Nat := rows.getD r []

/-- Replace row `r`, extending the screen with blank rows as needed. -/
def setRow (rows : List (List Nat)) (r : Nat) (l : List Nat) : List (List Nat) :=
  (rows ++ List.replicate (r + 1 - rows.length) []).set r l

/-- Write one byte at the cursor: a line feed moves down one row keeping the
column; any other byte wraps at the right margin, is stored, and advances
the column. -/
def writeByte (sc : Screen) (b : Nat) : Screen :=
  if b = 10 then { sc with row := sc.row + 1 }
  else
    let sc := if sc.width ≤ sc.col then { sc with row := sc.row + 1, col := 0 } else sc
    { sc with rows := setRow sc.rows sc.row (setAt (getRow sc.rows sc.row) sc.col b),
              col := sc.col + 1 }

/-- Execute one terminal command. -/
def applyCmd (sc : Screen) : TermCmd → Screen
  | TermCmd.moveToColumn n => { sc with col := min (n - 1) (sc.width - 1) }
  | TermCmd.moveUp n => { sc with row := sc.row - n }
  | TermCmd.moveDown n => { sc with row := sc.row + n }
  | TermCmd.moveRight n => { sc with col := min (sc.col + n) (sc.width - 1) }
  | TermCmd.moveTo x y => { sc with col := x, row := y }
  | TermCmd.clearFromCursorDown =>
      { sc with rows := sc.rows.take sc.row ++ [(getRow sc.rows sc.row).take sc.col] }
  | TermCmd.clearAll => { sc with rows := [] }
  | TermCmd.write data => data.foldl writeByte sc

/-- Execute a command sequence. -/
def runCmds (sc : Screen) (cmds : List TermCmd) : Screen := cmds.foldl applyCmd sc

/-! Concrete-input helpers and claim-side (spec-worded) definitions. -/

/-- An ASCII character as a one-byte, width-one grapheme. -/
def asciiG (c : Char) : Grapheme := { firstByte := c.toNat, restBytes := [], width := 1 }

/-- An ASCII string as a grapheme list. -/
def asciiText (s : String) : List Grapheme := s.data.map asciiG

/-- The bytes of an ASCII string. -/
def strBytes (s : String) : List Nat := s.data.map Char.toNat

/-- Display width of the prompt, the claim-side notion of C1 ("display
width of the prompt"); the source uses `prompt.len()` (bytes) instead. -/
def promptDisplayWidth (s : LineState) : Nat := lineWidth s.prompt

/-- The claim-side column of C1: display width of the prompt plus display
width of the line's text up to the cursor's byte offset. -/
def specColumn (s : LineState) : Nat :=
  promptDisplayWidth s + widthUpToByte s.line (cursorByteEnd s)

/-- The bytes of `data` after its last newline. -/
def tailAfterLastNl (data : List Nat) : List Nat :=
  (data.reverse.takeWhile (fun b => b ≠ 10)).reverse

/-- The claim-side notion of C8: the rendered length of the most recently
printed unterminated text, i.e. (for one-column bytes) the length of what
`data` puts after its last line terminator. -/
def specUnterminatedLen (data : List Nat) : Nat := (tailAfterLastNl data).length

/-- The cached-column invariant that the code actually maintains:
`current_column` is the 16-bit truncation of the prompt's byte length plus
the display width of the text up to the cursor's byte offset. -/
def colInv (s : LineState) : Prop :=
  s.current_column = (promptBytes s + widthUpToByte s.line (cursorByteEnd s)) % 65536

instance (s : LineState) : Decidable (colInv s) := by
  unfold colInv; infer_instance

/-! Concrete states used by the example-based claims and witnesses.  All of
them are reachable: a fresh `LineState::new` followed by typing the shown
text (each `char` event appends one grapheme and advances the cursor). -/

/-- A two-byte, width-one grapheme (Latin small letter e with acute). -/
def eAcute : Grapheme := { firstByte := 195, restBytes := [169], width := 1 }

/-- Fresh state with prompt `"é"` (byte length 2, display width 1). -/
def c1State : LineState := LineState.new [eAcute] (20, 5)

/-- State with the two-character line `"hi"` and the cursor after `"h"`. -/
def c1WitState : LineState :=
  { LineState.new [] (20, 5) with
    line := asciiText "hi", line_cursor_grapheme := 1, current_column := 1 }

/-- Fresh state on a 4-column terminal. -/
def c2State : LineState := LineState.new [] (4, 5)

/-- State with line `"hello"`, cursor at the end. -/
def c3State : LineState :=
  { LineState.new [] (20, 5) with
    line := asciiText "hello", line_cursor_grapheme := 5, current_column := 5 }

/-- A line of 10001 `'a'` graphemes, longer than the `-10000` cursor
sentinel of the CTRL-C/CTRL-U handlers. -/
def c4Line : List Grapheme := List.replicate 10001 (asciiG 'a')

/-- State holding `c4Line` with the cursor at its end (reachable by typing
10001 characters; the cached column is the 16-bit truncation of 10001). -/
def c4State : LineState :=
  { LineState.new [] (80, 24) with
    line := c4Line, line_cursor_grapheme := 10001, current_column := 10001 % 65536 }

/-- State with line `"foo bar baz"`, cursor at the end. -/
def c5State : LineState :=
  { LineState.new [] (80, 24) with
    line := asciiText "foo bar baz", line_cursor_grapheme := 11, current_column := 11 }

/-- State with the two-character line `"ab"` and the cursor after `"a"`. -/
def c6State : LineState :=
  { LineState.new [] (20, 5) with
    line := asciiText "ab", line_cursor_grapheme := 1, current_column := 1 }

/-- Fresh empty state on a 20-column terminal (used by the print claims). -/
def c7Base : LineState := LineState.new [] (20, 5)

/-- The empty screen of the 20-column terminal. -/
def c7Screen : Screen := { width := 20, rows := [], row := 0, col := 0 }

/-- State in the middle of unterminated output: 3 columns already printed
on a 4-column terminal without a final newline. -/
def c8State : LineState :=
  { LineState.new [] (4, 5) with last_line_completed := false, last_line_length := 3 }

/-- A line of 100001 `'a'` graphemes, longer than the `-100000` cursor
sentinel of the Enter/Home handlers. -/
def c9Line : List Grapheme := List.replicate 100001 (asciiG 'a')

/-- State holding `c9Line` with the cursor at its end. -/
def c9State : LineState :=
  { LineState.new [] (80, 24) with
    line := c9Line, line_cursor_grapheme := 100001, current_column := 100001 % 65536 }

/-- State with line `"abc"`, cursor at the end (used for CTRL-D). -/
def c10State : LineState :=
  { LineState.new [] (20, 5) with
    line := asciiText "abc", line_cursor_grapheme := 3, current_column := 3 }

/-- Default grapheme used only as the `List.getD` fallback in lemma
statements (never selected when the index is in range). -/
def gdef : Grapheme := { firstByte := 0, restBytes := [], width := 0 }

/-! General lemmas about the embedding. -/

theorem Grapheme.bytes_pos (g : Grapheme) : 0 < g.bytes := Nat.succ_pos _

theorem getLast?_cons_of_ne_nil {α : Type} (a : α) {l : List α} (h : l ≠ []) :
    (a :: l).getLast? = l.getLast? := by
  cases l with
  | nil => exact absurd rfl h
  | cons b t => exact List.getLast?_cons_cons

theorem graphemeIndicesAux_length (off : Nat) (l : List Grapheme) :
    (graphemeIndicesAux off l).length = l.length := by
  induction l generalizing off with
  | nil => rfl
  | cons g gs ih => simp [graphemeIndicesAux, ih]

theorem byteOffset_succ (l : List Grapheme) (k : Nat) (h : k < l.length) :
    byteOffset l (k + 1) = byteOffset l k + (l.getD k gdef).bytes := by
  induction l generalizing k with
  | nil => simp at h
  | cons g gs ih =>
    cases k with
    | zero => simp [byteOffset]
    | succ k =>
      have hk := ih k (by simpa using Nat.lt_of_succ_lt_succ h)
      simp only [byteOffset, List.getD_cons_succ, hk]
      omega

theorem cg_aux (l : List Grapheme) (c off : Nat) (h1 : 1 ≤ c) (h2 : c ≤ l.length) :
    ((graphemeIndicesAux off l).take c).getLast?
      = some (off + byteOffset l (c - 1), l.getD (c - 1) gdef) := by
  induction l generalizing c off with
  | nil => simp at h2; omega
  | cons g gs ih =>
    match c, h1 with
    | 1, _ => simp [graphemeIndicesAux, byteOffset, List.getD]
    | k + 2, _ =>
      have hk2 : k + 1 ≤ gs.length := by simpa using Nat.le_of_succ_le_succ h2
      have hsub : k + 2 - 1 = k + 1 := by omega
      rw [hsub, graphemeIndicesAux, List.take_succ_cons, getLast?_cons_of_ne_nil]
      · rw [ih (k + 1) (off + g.bytes) (Nat.succ_le_succ (Nat.zero_le k)) hk2]
        simp only [Nat.add_sub_cancel, byteOffset, List.getD_cons_succ]
        rw [Nat.add_assoc]
      · have hlen : ((graphemeIndicesAux (off + g.bytes) gs).take (k + 1)).length = k + 1 := by
          rw [List.length_take, graphemeIndicesAux_length]
          omega
        intro hnil
        rw [hnil] at hlen
        simp at hlen

theorem cursorByteEnd_eq (s : LineState) (h : s.line_cursor_grapheme ≤ s.line.length) :
    cursorByteEnd s = byteOffset s.line s.line_cursor_grapheme := by
  unfold cursorByteEnd current_grapheme graphemeIndices
  cases hc : s.line_cursor_grapheme with
  | zero => simp [byteOffset]
  | succ k =>
    rw [cg_aux s.line (k + 1) 0 (Nat.succ_le_succ (Nat.zero_le k)) (hc ▸ h)]
    simp only [Nat.add_sub_cancel, Nat.zero_add]
    rw [byteOffset_succ s.line k (by omega)]

theorem insertAtByte_boundary (l : List Grapheme) (c : Nat) (g : Grapheme) (h : c ≤ l.length) :
    insertAtByte l (byteOffset l c) g = l.take c ++ g :: l.drop c := by
  induction l generalizing c with
  | nil =>
    have : c = 0 := Nat.le_zero.mp h
    subst this
    simp [byteOffset, insertAtByte]
  | cons hd t ih =>
    cases c with
    | zero => simp [byteOffset, insertAtByte]
    | succ k =>
      have hb := hd.bytes_pos
      rw [insertAtByte, if_neg (by simp only [byteOffset]; omega)]
      simp only [byteOffset, List.take_succ_cons, List.drop_succ_cons, List.cons_append]
      rw [show hd.bytes + byteOffset t k - hd.bytes = byteOffset t k by omega]
      rw [ih k (Nat.le_of_succ_le_succ h)]

theorem rreAux_keepAll (l : List Grapheme) (off start stop : Nat) (h : stop ≤ off) :
    rreAux l off start stop = l := by
  induction l generalizing off with
  | nil => rfl
  | cons g gs ih =>
    have hb := g.bytes_pos
    rw [rreAux, if_neg (by intro hcon; omega), ih (off + g.bytes) (by omega)]

theorem rreAux_del (l : List Grapheme) (c : Nat) (g : Grapheme) (off : Nat) (h : c ≤ l.length) :
    rreAux (l.take c ++ g :: l.drop c) off (off + byteOffset l c) (off + byteOffset l c + g.bytes)
      = l := by
  induction l generalizing c off with
  | nil =>
    have : c = 0 := Nat.le_zero.mp h
    subst this
    rw [show (([] : List Grapheme).take 0 ++ g :: ([] : List Grapheme).drop 0) = [g] from rfl]
    rw [rreAux, if_pos ⟨by simp [byteOffset], by simp [byteOffset]⟩]
    rfl
  | cons hd t ih =>
    cases c with
    | zero =>
      simp only [List.take_zero, List.drop_zero, List.nil_append, byteOffset, Nat.add_zero]
      rw [rreAux, if_pos ⟨Nat.le_refl off, Nat.le_refl _⟩]
      exact rreAux_keepAll _ _ _ _ (Nat.le_refl _)
    | succ k =>
      have hb := hd.bytes_pos
      simp only [List.take_succ_cons, List.drop_succ_cons, List.cons_append, byteOffset]
      rw [rreAux, if_neg (by intro hcon; omega)]
      rw [← Nat.add_assoc off hd.bytes (byteOffset t k)]
      rw [ih k (off + hd.bytes) (Nat.le_of_succ_le_succ h)]

theorem replaceRange_restore (l : List Grapheme) (c : Nat) (g : Grapheme) (h : c ≤ l.length) :
    replaceRangeEmpty (l.take c ++ g :: l.drop c) (byteOffset l c) (byteOffset l c + g.bytes)
      = l := by
  have hd := rreAux_del l c g 0 h
  simpa [replaceRangeEmpty] using hd

theorem byteOffset_take_append (l : List Grapheme) (c : Nat) (r : List Grapheme)
    (h : c ≤ l.length) : byteOffset (l.take c ++ r) c = byteOffset l c := by
  induction l generalizing c with
  | nil =>
    have : c = 0 := Nat.le_zero.mp h
    subst this
    simp [byteOffset]
  | cons hd t ih =>
    cases c with
    | zero => simp [byteOffset]
    | succ k =>
      simp only [List.take_succ_cons, List.cons_append, byteOffset, List.append_eq]
      rw [ih k (Nat.le_of_succ_le_succ h)]

theorem getD_insert_at (l : List Grapheme) (c : Nat) (g : Grapheme) (h : c ≤ l.length) :
    (l.take c ++ g :: l.drop c).getD c gdef = g := by
  have hlen : (l.take c).length = c := by
    rw [List.length_take]
    omega
  rw [List.getD_eq_getElem?_getD, List.getElem?_append_right (by omega)]
  simp [hlen]

theorem print_data_fields (s : LineState) (d : List Nat) :
    (print_data s d).fst.line = s.line
    ∧ (print_data s d).fst.line_cursor_grapheme = s.line_cursor_grapheme
    ∧ (print_data s d).fst.current_column = s.current_column
    ∧ (print_data s d).fst.prompt = s.prompt := by
  unfold print_data
  dsimp only
  split <;> exact ⟨rfl, rfl, rfl, rfl⟩

theorem colInv_move_cursor (s : LineState) (ch : Int) : colInv (move_cursor s ch) := rfl

theorem colInv_print_data (s : LineState) (d : List Nat) (h : colInv s) :
    colInv (print_data s d).fst := by
  unfold print_data
  dsimp only
  split <;> exact h

theorem colInv_handle_event (s : LineState) (e : Event) (h : colInv s) :
    colInv (handle_event s e).state := by
  cases e with
  | enter => exact colInv_move_cursor _ _
  | backspace =>
    unfold handle_event backspaceStep
    rcases hcg : current_grapheme s with _ | ⟨pos, str⟩ <;> simp only [hcg]
    · exact h
    · exact colInv_move_cursor _ _
  | left => exact colInv_move_cursor _ _
  | right => exact colInv_move_cursor _ _
  | home => exact colInv_move_cursor _ _
  | endKey => exact colInv_move_cursor _ _
  | up found =>
    unfold handle_event historyStep
    rcases found with _ | l <;> simp only
    · exact h
    · exact colInv_move_cursor _ _
  | down found =>
    unfold handle_event historyStep
    rcases found with _ | l <;> simp only
    · exact h
    · exact colInv_move_cursor _ _
  | char g =>
    unfold handle_event charStep
    dsimp only
    rw [if_pos (by simp)]
    split
    · split
      · exact colInv_move_cursor _ _
      · exact colInv_move_cursor _ _
    · exact colInv_move_cursor _ _
  | ctrlD => exact h
  | ctrlC => exact colInv_move_cursor _ _
  | ctrlL => exact h
  | ctrlU =>
    unfold handle_event ctrlUStep
    rcases hcg : current_grapheme s with _ | ⟨pos, str⟩ <;> simp only [hcg]
    · exact h
    · exact colInv_move_cursor _ _
  | ctrlLeft =>
    unfold handle_event ctrlLeftStep
    dsimp only
    split <;> exact colInv_move_cursor _ _
  | ctrlRight =>
    unfold handle_event ctrlRightStep
    dsimp only
    split <;> exact colInv_move_cursor _ _
  | resize x y => exact h
  | other => exact h

theorem charStep_state (s : LineState) (g : Grapheme)
    (h : s.line_cursor_grapheme ≤ s.line.length) :
    (charStep s g).state.line
        = s.line.take s.line_cursor_grapheme ++ g :: s.line.drop s.line_cursor_grapheme
    ∧ (charStep s g).state.line_cursor_grapheme = s.line_cursor_grapheme + 1 := by
  unfold charStep
  dsimp only
  rw [if_pos (by simp), cursorByteEnd_eq s h,
    insertAtByte_boundary s.line s.line_cursor_grapheme g h]
  constructor
  · split
    · split <;> rfl
    · rfl
  · have hlen : (s.line.take s.line_cursor_grapheme
        ++ g :: s.line.drop s.line_cursor_grapheme).length = s.line.length + 1 := by
      simp only [List.length_append, List.length_take, List.length_cons, List.length_drop]
      omega
    have hmc : (move_cursor { s with
        line := s.line.take s.line_cursor_grapheme ++ g :: s.line.drop s.line_cursor_grapheme,
        cluster_buffer := s.cluster_buffer ++ [g] } 1).line_cursor_grapheme
          = s.line_cursor_grapheme + 1 := by
      unfold move_cursor
      dsimp only
      rw [if_pos (by decide), show (1 : Int).toNat = 1 from rfl, hlen]
      omega
    split
    · split
      · exact hmc
      · exact hmc
    · exact hmc

theorem backspaceStep_after_insert (t : LineState) (l : List Grapheme) (c : Nat) (g : Grapheme)
    (hc : c ≤ l.length)
    (hline : t.line = l.take c ++ g :: l.drop c)
    (hcur : t.line_cursor_grapheme = c + 1) :
    (backspaceStep t).state.line = l
    ∧ (backspaceStep t).state.line_cursor_grapheme = c := by
  have hlen : t.line.length = l.length + 1 := by
    rw [hline]
    simp only [List.length_append, List.length_take, List.length_cons, List.length_drop]
    omega
  have hcg : current_grapheme t = some (byteOffset l c, g) := by
    unfold current_grapheme graphemeIndices
    rw [hcur, cg_aux t.line (c + 1) 0 (by omega) (by omega)]
    simp only [Nat.add_sub_cancel, Nat.zero_add]
    rw [hline, byteOffset_take_append l c (g :: l.drop c) hc, getD_insert_at l c g hc]
  unfold backspaceStep
  rw [hcg]
  dsimp only
  constructor
  · show replaceRangeEmpty t.line (byteOffset l c) (byteOffset l c + g.bytes) = l
    rw [hline]
    exact replaceRange_restore l c g hc
  · unfold move_cursor
    dsimp only
    rw [if_neg (by decide), hcur, show ((-(-1 : Int)).toNat) = 1 from rfl]
    omega

/-! The claim theorems. -/

/-- C1 (counterexample): the claim as stated is false.  With prompt `"é"`
(two bytes, display width one) and an empty line, one Left key event leaves
`current_column = 2` (the prompt's byte length), not the prompt's display
width `1` demanded by the claim's formula. -/
theorem c1_prompt_width_counterexample :
    (handle_event c1State Event.left).state.current_column
      ≠ specColumn (handle_event c1State Event.left).state := by decide

/-- C1 (amended): the cached-column invariant the code maintains uses the
prompt's byte length, not its display width.  `LineState::new` establishes
`current_column = (prompt byte length + display width of the text up to the
cursor's byte offset) mod 2^16`, and every `handle_event` and `print_data`
preserves it. -/
theorem c1_column_invariant (p : List Grapheme) (sz : Nat × Nat) (s : LineState) :
    colInv (LineState.new p sz)
    ∧ (colInv s →
        (∀ e : Event, colInv (handle_event s e).state)
        ∧ (∀ d : List Nat, colInv (print_data s d).fst)) :=
  ⟨rfl, fun h => ⟨fun e => colInv_handle_event s e h, fun d => colInv_print_data s d h⟩⟩

/-- C1 witness: the invariant theorem applied at concrete inputs. -/
theorem c1_column_invariant_witness :
    colInv (LineState.new [] (20, 5))
    ∧ colInv (handle_event c1WitState Event.left).state
    ∧ colInv (print_data c1WitState (strBytes "hi")).fst :=
  ⟨(c1_column_invariant [] (20, 5) c1WitState).1,
   ((c1_column_invariant [] (20, 5) c1WitState).2 (by decide)).1 Event.left,
   ((c1_column_invariant [] (20, 5) c1WitState).2 (by decide)).2 (strBytes "hi")⟩

/-- C2 (counterexample): the claim as stated is false.  On a 4-column
terminal, `move_from_beginning` to column 4 queues `MoveRight (4 % 4) = 0`,
not `MoveRight ((4 - 1) % 4) = 3` as the claim's "offset computed on
`to.saturating_sub(1)`" demands. -/
theorem c2_offset_counterexample :
    ¬ (move_from_beginning c2State 4
        = [TermCmd.moveDown ((4 - 1) / c2State.term_size.fst),
           TermCmd.moveRight ((4 - 1) % c2State.term_size.fst)]) := by decide

/-- C2 (amended): the wrapped-line count is computed on `c.saturating_sub 1`
but the right-offset is computed on `c` itself: `move_from_beginning(to)`
queues `MoveDown ((to - 1) / w)` then `MoveRight (to % w)`, and
`move_to_beginning(from)` queues `MoveToColumn 1` then
`MoveUp ((from - 1) / w)`. -/
theorem c2_wrap_mapping (s : LineState) (tgt fr : Nat) (_hw : 0 < s.term_size.fst) :
    move_from_beginning s tgt
      = [TermCmd.moveDown ((tgt - 1) / s.term_size.fst),
         TermCmd.moveRight (tgt % s.term_size.fst)]
    ∧ move_to_beginning s fr
      = [TermCmd.moveToColumn 1, TermCmd.moveUp ((fr - 1) / s.term_size.fst)] :=
  ⟨rfl, rfl⟩

/-- C2 witness: the wrap mapping evaluated on a 4-column terminal at
columns 9 and 5. -/
theorem c2_wrap_mapping_witness :
    move_from_beginning c2State 9 = [TermCmd.moveDown 2, TermCmd.moveRight 1]
    ∧ move_to_beginning c2State 5 = [TermCmd.moveToColumn 1, TermCmd.moveUp 1] :=
  ⟨(c2_wrap_mapping c2State 9 5 (by decide)).1, (c2_wrap_mapping c2State 9 5 (by decide)).2⟩

/-- C5: on `"foo bar baz"` with the cursor at the end, three successive
CTRL-Left word motions place the cursor at grapheme index 8 (start of
`"baz"`), then 4 (start of `"bar"`), then 0. -/
theorem c5_word_motion :
    (handle_event c5State Event.ctrlLeft).state.line_cursor_grapheme = 8
    ∧ (handle_event (handle_event c5State Event.ctrlLeft).state
        Event.ctrlLeft).state.line_cursor_grapheme = 4
    ∧ (handle_event (handle_event (handle_event c5State Event.ctrlLeft).state
        Event.ctrlLeft).state Event.ctrlLeft).state.line_cursor_grapheme = 0 := by
  decide

/-- C3: Enter on the buffer `"hello"` (cursor anywhere within the line)
submits the line `"hello"` to the caller and leaves the buffer empty with
the cursor at 0. -/
theorem c3_enter_submits (s : LineState) (h1 : s.line = asciiText "hello")
    (h2 : s.line_cursor_grapheme ≤ s.line.length) :
    (handle_event s Event.enter).result = HandleResult.ok (some (asciiText "hello"))
    ∧ (handle_event s Event.enter).state.line = []
    ∧ (handle_event s Event.enter).state.line_cursor_grapheme = 0 := by
  have h5 : s.line_cursor_grapheme ≤ 5 := by
    rw [h1] at h2
    simpa [asciiText] using h2
  unfold handle_event enterStep move_cursor
  dsimp only
  rw [if_neg (by decide)]
  refine ⟨by rw [h1], rfl, ?_⟩
  rw [show ((-(-100000 : Int)).toNat) = 100000 from rfl]
  omega

/-- C3 witness: Enter applied at the concrete `"hello"` state with the
cursor at the end. -/
theorem c3_enter_submits_witness :
    (handle_event c3State Event.enter).result = HandleResult.ok (some (asciiText "hello"))
    ∧ (handle_event c3State Event.enter).state.line = []
    ∧ (handle_event c3State Event.enter).state.line_cursor_grapheme = 0 :=
  c3_enter_submits c3State rfl (by decide)

/-- C4: CTRL-D on an empty buffer does yield the end-of-input error and the
error kinds are mutually distinguishable, but the CTRL-C clause of the
claim fails on the code: with 10001 graphemes and the cursor at the end,
CTRL-C clears the buffer yet leaves the cursor at 1, not 0, because the
handler "resets" the cursor by the saturating sentinel `move_cursor(-10000)`
instead of an explicit move-to-start. -/
theorem c4_ctrlc_sentinel_bug :
    (handle_event (LineState.new [] (20, 5)) Event.ctrlD).result
        = HandleResult.err ReadlineError.eof
    ∧ (handle_event c4State Event.ctrlC).result = HandleResult.err ReadlineError.interrupted
    ∧ (handle_event c4State Event.ctrlC).state.line = []
    ∧ (handle_event c4State Event.ctrlC).state.line_cursor_grapheme = 1
    ∧ ReadlineError.eof ≠ ReadlineError.io
    ∧ ReadlineError.interrupted ≠ ReadlineError.io := by
  refine ⟨rfl, rfl, rfl, ?_, by decide, by decide⟩
  unfold handle_event ctrlCStep move_cursor
  dsimp only
  rw [if_neg (by decide)]
  rw [(print_data_fields c4State (bytesOf c4State.prompt ++ bytesOf c4State.line)).2.1]
  decide

/-- C9: the cursor bound `cursor_grapheme ≤ grapheme_count(text)` is broken
by the sentinel idiom: pressing Enter with 100001 graphemes and the cursor
at the end empties the line but leaves `cursor_grapheme = 1 > 0`, because
`move_cursor(-100000)` saturates instead of moving to the start. -/
theorem c9_cursor_bound_bug :
    (handle_event c9State Event.enter).state.line = []
    ∧ (handle_event c9State Event.enter).state.line_cursor_grapheme = 1
    ∧ ¬ ((handle_event c9State Event.enter).state.line_cursor_grapheme
          ≤ (handle_event c9State Event.enter).state.line.length) := by
  have hline : (handle_event c9State Event.enter).state.line = [] := rfl
  have hcur : (handle_event c9State Event.enter).state.line_cursor_grapheme = 1 := by
    unfold handle_event enterStep move_cursor
    dsimp only
    rw [if_neg (by decide)]
    decide
  refine ⟨hline, hcur, ?_⟩
  rw [hcur, hline]
  decide

/-- C6: inserting one grapheme at the cursor (a printable-character key
event) and then deleting it with Backspace returns the buffer and the
cursor to their state before the two events, for every state whose cursor
respects the documented bound. -/
theorem c6_insert_backspace_roundtrip (s : LineState) (g : Grapheme)
    (h : s.line_cursor_grapheme ≤ s.line.length) :
    (handle_event (handle_event s (Event.char g)).state Event.backspace).state.line = s.line
    ∧ (handle_event (handle_event s (Event.char g)).state
        Event.backspace).state.line_cursor_grapheme = s.line_cursor_grapheme := by
  have hc := charStep_state s g h
  have hb := backspaceStep_after_insert (charStep s g).state s.line s.line_cursor_grapheme g h
    hc.1 hc.2
  exact ⟨hb.1, hb.2⟩

/-- C6 witness: the round trip applied at the state `"ab"` with the cursor
after `"a"`, inserting `"x"`. -/
theorem c6_insert_backspace_roundtrip_witness :
    (handle_event (handle_event c6State (Event.char (asciiG 'x'))).state
        Event.backspace).state.line = asciiText "ab"
    ∧ (handle_event (handle_event c6State (Event.char (asciiG 'x'))).state
        Event.backspace).state.line_cursor_grapheme = 1 :=
  c6_insert_backspace_roundtrip c6State (asciiG 'x') (by decide)

/-- C7: when the previously printed chunk was unterminated, `print_data`
first clears the edited line, then repositions (up one row, to column 1,
right by the recorded unterminated length) before writing the new data;
and concretely, printing `"partial"` and then `" end\n"` from a fresh
20-column state leaves the single screen line `"partial end"`. -/
theorem c7_print_stitching :
    (∀ (s : LineState) (data : List Nat), s.last_line_completed = false →
      ∃ tail, (print_data s data).snd
        = clear s
          ++ [TermCmd.moveUp 1, TermCmd.moveToColumn 1,
              TermCmd.moveRight (s.last_line_length % 65536)]
          ++ (splitInclusiveNl data).flatMap
              (fun l => [TermCmd.write l, TermCmd.moveToColumn 1])
          ++ tail)
    ∧ (runCmds (runCmds c7Screen (print_data c7Base (strBytes "partial")).snd)
          (print_data (print_data c7Base (strBytes "partial")).fst (strBytes " end\n")).snd).rows
        = [strBytes "partial end", []] := by
  constructor
  · intro s data h
    by_cases hend : data.getLast? = some 10
    · refine ⟨[TermCmd.moveToColumn 1]
        ++ render { s with
            last_line_completed := true
            last_line_length := 0 }, ?_⟩
      unfold print_data
      dsimp only
      rw [if_pos hend]
      simp [h, List.append_assoc]
    · refine ⟨(if s.term_size.fst ≤ s.last_line_length + data.length
            then [TermCmd.write [10]] else [])
          ++ [TermCmd.write [10], TermCmd.moveToColumn 1]
          ++ render { s with
              last_line_completed := false
              last_line_length :=
                if s.term_size.fst ≤ s.last_line_length + data.length
                then (s.last_line_length + data.length) % s.term_size.fst
                else s.last_line_length + data.length }, ?_⟩
      unfold print_data
      dsimp only
      rw [if_neg hend]
      simp [h, List.append_assoc]
  · decide

/-- C7 witness: the reposition property of `c7_print_stitching` applied to
the second print of the concrete scenario. -/
theorem c7_print_stitching_witness :
    ∃ tail, (print_data (print_data c7Base (strBytes "partial")).fst (strBytes " end\n")).snd
      = clear (print_data c7Base (strBytes "partial")).fst
        ++ [TermCmd.moveUp 1, TermCmd.moveToColumn 1,
            TermCmd.moveRight
              ((print_data c7Base (strBytes "partial")).fst.last_line_length % 65536)]
        ++ (splitInclusiveNl (strBytes " end\n")).flatMap
            (fun l => [TermCmd.write l, TermCmd.moveToColumn 1])
        ++ tail :=
  c7_print_stitching.1 (print_data c7Base (strBytes "partial")).fst (strBytes " end\n")
    (by decide)

/-- C8 (counterexample): the claim as stated is false.  Printing
`"ab\ncd"` from a fresh state records `last_line_length = 5` (the whole
chunk's byte length), while the rendered length of the most recently
printed unterminated text (`"cd"`, after the embedded newline) is 2. -/
theorem c8_recorded_length_counterexample :
    (print_data c7Base (strBytes "ab\ncd")).fst.last_line_length
      ≠ specUnterminatedLen (strBytes "ab\ncd") := by decide

/-- C8 (amended): after `print_data(data)`, if `data` ends in a newline the
recorded unterminated length is reset to 0; otherwise it is the previous
recorded length plus the whole byte length of `data` (not just the part
after the last embedded terminator), reduced modulo the terminal width
exactly when it has reached at least one full row, in which case one
synthetic extra line feed is also emitted. -/
theorem c8_unterminated_bookkeeping (s : LineState) (data : List Nat)
    (_hw : 0 < s.term_size.fst) :
    (data.getLast? = some 10 →
      (print_data s data).fst.last_line_length = 0
      ∧ (print_data s data).fst.last_line_completed = true)
    ∧ (data.getLast? ≠ some 10 →
      (print_data s data).fst.last_line_completed = false
      ∧ (s.last_line_length + data.length < s.term_size.fst →
          (print_data s data).fst.last_line_length = s.last_line_length + data.length)
      ∧ (s.term_size.fst ≤ s.last_line_length + data.length →
          (print_data s data).fst.last_line_length
              = (s.last_line_length + data.length) % s.term_size.fst
          ∧ ∃ pre, (print_data s data).snd
              = pre ++ [TermCmd.write [10], TermCmd.write [10], TermCmd.moveToColumn 1]
                ++ render (print_data s data).fst)) := by
  constructor
  · intro hend
    unfold print_data
    dsimp only
    rw [if_pos hend]
    exact ⟨rfl, rfl⟩
  · intro hend
    refine ⟨?_, fun hlt => ?_, fun hge => ⟨?_, ?_⟩⟩
    · unfold print_data
      dsimp only
      rw [if_neg hend]
    · unfold print_data
      dsimp only
      rw [if_neg hend]
      dsimp only
      rw [if_neg (by omega)]
    · unfold print_data
      dsimp only
      rw [if_neg hend]
      dsimp only
      rw [if_pos hge]
    · refine ⟨clear s
        ++ (if s.last_line_completed then []
            else [TermCmd.moveUp 1, TermCmd.moveToColumn 1,
                  TermCmd.moveRight (s.last_line_length % 65536)])
        ++ (splitInclusiveNl data).flatMap
            (fun l => [TermCmd.write l, TermCmd.moveToColumn 1]), ?_⟩
      unfold print_data
      dsimp only
      rw [if_neg hend]
      dsimp only
      rw [if_pos hge]
      simp [List.append_assoc]

/-- C8 witness: the bookkeeping theorem applied at the state with 3
recorded columns on a 4-column terminal, printing the two unterminated
bytes `"ab"` (so the length wraps to `(3 + 2) % 4 = 1`). -/
theorem c8_unterminated_bookkeeping_witness :
    (print_data c8State (strBytes "ab")).fst.last_line_length = 1
    ∧ ∃ pre, (print_data c8State (strBytes "ab")).snd
        = pre ++ [TermCmd.write [10], TermCmd.write [10], TermCmd.moveToColumn 1]
          ++ render (print_data c8State (strBytes "ab")).fst := by
  have h := ((c8_unterminated_bookkeeping c8State (strBytes "ab") (by decide)).2
      (by decide)).2.2 (by decide)
  exact ⟨h.1.trans (by decide), h.2⟩

/-- C10: CTRL-D returns the end-of-input condition without modifying the
line state at all; the terminal only receives a line feed and the
clear-line command sequence. -/
theorem c10_ctrld_preserves_state (s : LineState) :
    (handle_event s Event.ctrlD).state = s
    ∧ (handle_event s Event.ctrlD).result = HandleResult.err ReadlineError.eof
    ∧ (handle_event s Event.ctrlD).cmds = TermCmd.write [10] :: clear s :=
  ⟨rfl, rfl, rfl⟩

end RustylineAsync
